import Mathlib

/-!
Verification of the ETL pipeline in `etl.py` (song/log JSON files →
relational rows) against its natural-language specification.

The embedding models:
- the UTC calendar decomposition performed by `pandas` on the `ts`
  column (`pd.to_datetime` stores an integer count of *nanoseconds*
  since the Unix epoch when given an integer input with no `unit`
  argument, and `.dt.hour/.day/.isocalendar().week/.month/.year/.weekday`
  decompose that instant in UTC);
- `process_song_file` and `process_log_file` as functions from parsed
  records to the ordered list of executed insert statements;
- `process_data` as a driver producing a trace of statement executions,
  per-file commits and progress reports, stopping at the first error;
- `main` as the straight-line sequence connect / run songs / run logs /
  close, with exceptions propagating;
- file discovery (`os.walk` + `glob.glob(root/*.json)`) over a model
  filesystem tree.
-/

namespace Etl

/-! ## Calendar arithmetic

`pandas` timestamps are integer nanosecond counts since 1970-01-01
00:00:00 UTC.  The field accessors used at `etl.py` lines 68–76
decompose that instant on the proleptic Gregorian calendar, with
`weekday` counting Monday as 0 and `isocalendar().week` the ISO-8601
week number.  The civil-date conversion below is the standard
Gregorian days-from-epoch decomposition. -/

def nsPerSecond : Int := 1000000000

def secondsPerDay : Int := 86400

/-- Whole days elapsed since 1970-01-01 for an instant given in
nanoseconds since the epoch (floor division, as pandas does). -/
def daysOfNs (ns : Int) : Int :=
  (ns.fdiv nsPerSecond).fdiv secondsPerDay

/-- Second of the day (0–86399) of an instant given in ns since epoch. -/
def secondOfDayOfNs (ns : Int) : Int :=
  (ns.fdiv nsPerSecond).emod secondsPerDay

/-- Hour of day (0–23). -/
def hourOfNs (ns : Int) : Int :=
  (secondOfDayOfNs ns).fdiv 3600

/-- Civil (proleptic Gregorian) date of a day count since 1970-01-01:
returns (year, month, day-of-month). -/
def civilFromDays (z : Int) : Int × Int × Int :=
  let z' := z + 719468
  let era := z'.fdiv 146097
  let doe := z'.emod 146097
  let yoe := (doe - doe.fdiv 1460 + doe.fdiv 36524 - doe.fdiv 146096).fdiv 365
  let doy := doe - (365 * yoe + yoe.fdiv 4 - yoe.fdiv 100)
  let mp := (5 * doy + 2).fdiv 153
  let d := doy - (153 * mp + 2).fdiv 5 + 1
  let m := mp + (if mp < 10 then 3 else -9)
  (yoe + era * 400 + (if m ≤ 2 then 1 else 0), m, d)

/-- Day count since 1970-01-01 of a civil (year, month, day) date. -/
def daysFromCivil (y m d : Int) : Int :=
  let y' := y - (if m ≤ 2 then 1 else 0)
  let era := y'.fdiv 400
  let yoe := y' - era * 400
  let doy := (153 * (if 2 < m then m - 3 else m + 9) + 2).fdiv 5 + d - 1
  let doe := yoe * 365 + yoe.fdiv 4 - yoe.fdiv 100 + doy
  era * 146097 + doe - 719468

def yearOfNs (ns : Int) : Int := (civilFromDays (daysOfNs ns)).1

def monthOfNs (ns : Int) : Int := (civilFromDays (daysOfNs ns)).2.1

def dayOfNs (ns : Int) : Int := (civilFromDays (daysOfNs ns)).2.2

/-- Weekday with Monday = 0 (1970-01-01 was a Thursday, i.e. 3). -/
def weekdayOfDays (z : Int) : Int := (z + 3).emod 7

def weekdayOfNs (ns : Int) : Int := weekdayOfDays (daysOfNs ns)

/-- Number of ISO-8601 weeks (52 or 53) in a given year. -/
def isoWeeksInYear (y : Int) : Int :=
  let p : Int → Int := fun yy => (yy + yy.fdiv 4 - yy.fdiv 100 + yy.fdiv 400).emod 7
  if p y = 4 ∨ p (y - 1) = 3 then 53 else 52

/-- ISO-8601 week number of the date reached by a day count since
1970-01-01. -/
def isoWeekOfDays (z : Int) : Int :=
  let c := civilFromDays z
  let y := c.1
  let ordinal := z - daysFromCivil y 1 1 + 1
  let isoWeekday := weekdayOfDays z + 1
  let w := (ordinal - isoWeekday + 10).fdiv 7
  if w < 1 then isoWeeksInYear (y - 1)
  else if isoWeeksInYear y < w then 1
  else w

def weekOfNs (ns : Int) : Int := isoWeekOfDays (daysOfNs ns)

/-- The time-dimension row emitted for one timestamp value at
`etl.py` lines 64–100: `pd.to_datetime` on the integer `ts` column
uses the default unit of nanoseconds, so the stored instant is `ts`
nanoseconds after the epoch; the row is
(start_time, hour, day, week, month, year, weekday). -/
def timeRowOfTs (ts : Int) : List Int :=
  [ts, hourOfNs ts, dayOfNs ts, weekOfNs ts, monthOfNs ts, yearOfNs ts,
    weekdayOfNs ts]

/-- The decomposition the specification asks for: the UTC calendar
fields of the instant `ms` *milliseconds* after the Unix epoch
(hour, day, ISO week, month, year, weekday with Monday = 0). -/
def specUtcFieldsOfMs (ms : Int) : List Int :=
  let ns := ms * 1000000
  [hourOfNs ns, dayOfNs ns, weekOfNs ns, monthOfNs ns, yearOfNs ns,
    weekdayOfNs ns]

/-! ## Data model

Records as parsed from the JSON inputs, and the rows/statements the
transformers hand to `cur.execute`. Float-valued fields (durations,
coordinates) are modelled as rationals: the code compares them only
for exact equality. -/

/-- One line of a log file (`etl.py` line 58, fields used by
`process_log_file`). -/
structure LogRecord where
  page : String
  ts : Int
  userId : String
  firstName : String
  lastName : String
  gender : String
  level : String
  song : String
  artist : String
  length : Rat
  sessionId : Int
  location : String
  userAgent : String
  deriving DecidableEq, Repr

/-- The flat record of one song file (`etl.py` line 22). -/
structure SongFileRecord where
  song_id : String
  title : String
  artist_id : String
  year : Int
  duration : Rat
  artist_name : String
  artist_location : String
  artist_latitude : Rat
  artist_longitude : Rat
  deriving DecidableEq, Repr

/-- A songs-table row already loaded in the database. -/
structure Song where
  song_id : String
  title : String
  artist_id : String
  year : Int
  duration : Rat
  deriving DecidableEq, Repr

/-- An artists-table row already loaded in the database. -/
structure Artist where
  artist_id : String
  name : String
  location : String
  latitude : Rat
  longitude : Rat
  deriving DecidableEq, Repr

/-- Database contents visible to the `song_select` lookup. -/
structure DB where
  songs : List Song
  artists : List Artist
  deriving DecidableEq, Repr

/-- The songplays-table row built at `etl.py` lines 129–139. -/
structure SongplayRow where
  start_time : Int
  userId : String
  level : String
  songId : Option String
  artistId : Option String
  sessionId : Int
  location : String
  userAgent : String
  deriving DecidableEq, Repr

/-- One parameterized insert statement handed to `cur.execute`. -/
inductive Stmt where
  | songIns (song_id title artist_id : String) (year : Int) (duration : Rat)
  | artistIns (artist_id name location : String) (latitude longitude : Rat)
  | timeIns (row : List Int)
  | userIns (userId firstName lastName gender level : String)
  | songplayIns (row : SongplayRow)
  | logartistIns (artist : String)
  deriving DecidableEq, Repr

/-! ## Song record transformer (`process_song_file`, lines 12–42) -/

/-- `process_song_file`: extract the song column subset and execute the
song insert, then the artist column subset and the artist insert. -/
def process_song_file (r : SongFileRecord) : List Stmt :=
  [Stmt.songIns r.song_id r.title r.artist_id r.year r.duration,
   Stmt.artistIns r.artist_id r.artist_name r.artist_location
     r.artist_latitude r.artist_longitude]

/-! ## Log record transformer (`process_log_file`, lines 45–143) -/

/-- The NextSong filter at line 61. -/
def qualifies (r : LogRecord) : Bool := r.page == "NextSong"

/-- Modelled from the spec: the `song_select` statement lives in
`sql_queries.py`, which is not part of the sources; per §4.3 step 4 it
joins the loaded songs and artists and matches on
(song title == record.song, artist name == record.artist,
song duration == record.length) with exact equality, returning
(song_id, artist_id) pairs. -/
def song_select (db : DB) (title name : String) (length : Rat) :
    List (String × String) :=
  (db.songs.filter fun s => s.title == title && s.duration == length).flatMap
    fun s =>
      (db.artists.filter fun a => a.artist_id == s.artist_id && a.name == name).map
        fun a => (s.song_id, a.artist_id)

/-- Lines 119–126: execute the lookup, `fetchone()` the first result
row, unpack it if present, else both ids are `None`. -/
def resolveIds (db : DB) (r : LogRecord) : Option String × Option String :=
  match (song_select db r.song r.artist r.length).head? with
  | some (sid, aid) => (some sid, some aid)
  | none => (none, none)

/-- The songplay row of lines 129–139 (`row['ts_timestamp']` is the
same `pd.to_datetime` value, whose underlying integer is `ts`). -/
def songplayRowOf (db : DB) (r : LogRecord) : SongplayRow :=
  let ids := resolveIds db r
  { start_time := r.ts, userId := r.userId, level := r.level
    songId := ids.1, artistId := ids.2, sessionId := r.sessionId
    location := r.location, userAgent := r.userAgent }

/-- The column tuple `time_data` of lines 68–76, one column per list. -/
def timeData (tss : List Int) : List Int × List Int × List Int × List Int ×
    List Int × List Int × List Int :=
  (tss, tss.map hourOfNs, tss.map dayOfNs, tss.map weekOfNs,
    tss.map monthOfNs, tss.map yearOfNs, tss.map weekdayOfNs)

/-- `pd.DataFrame(data=time_data).T` (line 86): rows of the transposed
seven-column frame, truncated at the shortest column (all columns here
have equal length). -/
def transpose7 : List Int → List Int → List Int → List Int → List Int →
    List Int → List Int → List (List Int)
  | t :: ts, h :: hs, d :: ds, w :: ws, m :: ms, y :: ys, k :: ks =>
      [t, h, d, w, m, y, k] :: transpose7 ts hs ds ws ms ys ks
  | _, _, _, _, _, _, _ => []

/-- The rows of `time_df` iterated at line 99, in order. -/
def timeRows (tss : List Int) : List (List Int) :=
  let c := timeData tss
  transpose7 c.1 c.2.1 c.2.2.1 c.2.2.2.1 c.2.2.2.2.1 c.2.2.2.2.2.1
    c.2.2.2.2.2.2

/-- `process_log_file`: filter to NextSong records, then execute all
time-row inserts (lines 99–100), then all user-row inserts
(lines 112–113), then per record a songplay insert followed by a
logartist insert (lines 116–143). -/
def process_log_file (db : DB) (recs : List LogRecord) : List Stmt :=
  let df := recs.filter qualifies
  (timeRows (df.map (·.ts))).map Stmt.timeIns
    ++ df.map (fun r =>
        Stmt.userIns r.userId r.firstName r.lastName r.gender r.level)
    ++ df.flatMap (fun r =>
        [Stmt.songplayIns (songplayRowOf db r), Stmt.logartistIns r.artist])

/-! ## Pipeline driver (`process_data`, lines 146–164)

A file's transformer either raises (`Except.error`) or yields the
statements it executed; the driver executes a file, commits, prints
the progress line, and moves to the next file. An uncaught error
aborts the loop: the failing file's transaction is never committed,
and no later file is attempted. Only statements followed by their
file's commit appear in the trace — writes of an uncommitted
transaction do not persist. -/

/-- One observable driver event. -/
inductive DriverEvent where
  | exec (s : Stmt)
  | commit
  | progress (i n : Nat)
  deriving DecidableEq, Repr

/-- The loop at lines 161–164, enumerating from 1 with `n` total
files: returns the event trace and the propagated error, if any. -/
def driverLoop {α ε : Type} (func : α → Except ε (List Stmt)) (n : Nat) :
    Nat → List α → List DriverEvent × Option ε
  | _, [] => ([], none)
  | i, f :: rest =>
      match func f with
      | Except.error e => ([], some e)
      | Except.ok ws =>
          let tail := driverLoop func n (i + 1) rest
          (ws.map DriverEvent.exec
            ++ DriverEvent.commit :: DriverEvent.progress i n :: tail.1,
           tail.2)

/-- `process_data` after discovery: run every discovered file through
`func`, committing and reporting progress per file. -/
def process_data {α ε : Type} (func : α → Except ε (List Stmt))
    (files : List α) : List DriverEvent × Option ε :=
  driverLoop func files.length 1 files

/-! ## Entry point (`main`, lines 167–176)

`main` connects, runs the song pipeline, runs the log pipeline, then
closes the connection — with no `try`/`finally`, so an exception in
either run propagates past the `conn.close()` line. -/

/-- One observable step of `main`. -/
inductive MainEvent where
  | connect
  | runSongs
  | runLogs
  | close
  deriving DecidableEq, Repr

/-- The straight-line body of `main`, parameterized by the outcome of
each pipeline run: the trace of completed steps and the propagated
error, if any. -/
def mainRun {ε : Type} (songRun logRun : Except ε Unit) :
    List MainEvent × Option ε :=
  match songRun with
  | Except.error e => ([MainEvent.connect], some e)
  | Except.ok _ =>
      match logRun with
      | Except.error e => ([MainEvent.connect, MainEvent.runSongs], some e)
      | Except.ok _ =>
          ([MainEvent.connect, MainEvent.runSongs, MainEvent.runLogs,
            MainEvent.close], none)

/-! ## File discovery (`process_data`, lines 150–154)

`os.walk` yields every directory under the root (top-down); in each,
`glob.glob(os.path.join(root, '*.json'))` matches the directory's
entries — files *and* subdirectories — whose names end in `.json`,
excluding names that start with a dot (glob's `*` never matches a
leading dot); matches are appended as absolute paths. -/

/-- A filesystem entry: a plain file or a directory with entries. -/
inductive FSTree where
  | file (name : String)
  | dir (name : String) (children : List FSTree)

def FSTree.name : FSTree → String
  | .file n => n
  | .dir n _ => n

/-- Whether glob pattern `*.json` matches an entry name: the name ends
with `.json` and its leading character is not a dot (fnmatch's `*`
never matches a leading dot). Stated on the character lists underlying
the strings. -/
def globMatch (name : String) : Bool :=
  List.isSuffixOf ".json".data name.data
    && !(List.isPrefixOf ".".data name.data)

/-- The absolute paths `glob.glob(dirPath + '/*.json')` returns, in
directory-listing order. -/
def globJson (dirPath : String) (entries : List FSTree) : List String :=
  (entries.filter fun c => globMatch c.name).map
    fun c => dirPath ++ "/" ++ c.name

mutual
/-- `os.walk` on one entry: nothing for a plain file, and for a
directory its own (path, entries) pair followed by the walks of its
entries, top-down. -/
def walkTree (dirPath : String) : FSTree → List (String × List FSTree)
  | .file _ => []
  | .dir n cs =>
      (dirPath ++ "/" ++ n, cs) :: walkTreeList (dirPath ++ "/" ++ n) cs

def walkTreeList (dirPath : String) :
    List FSTree → List (String × List FSTree)
  | [] => []
  | t :: ts => walkTree dirPath t ++ walkTreeList dirPath ts
end

/-- Lines 150–154: walk the root directory (whose own path is
`rootPath` and entries are `entries`) and collect every glob match of
every visited directory. -/
def discover (rootPath : String) (entries : List FSTree) : List String :=
  ((rootPath, entries) :: walkTreeList rootPath entries).flatMap
    fun p => globJson p.1 p.2

mutual
/-- Reference enumeration for discovery: the path of every entry
anywhere strictly under the root whose name matches `*.json`, in
preorder. -/
def matchingEntries (dirPath : String) : FSTree → List String
  | .file n => if globMatch n then [dirPath ++ "/" ++ n] else []
  | .dir n cs =>
      (if globMatch n then [dirPath ++ "/" ++ n] else [])
        ++ matchingEntriesList (dirPath ++ "/" ++ n) cs

/-- `matchingEntries` over a directory listing. -/
def matchingEntriesList (dirPath : String) : List FSTree → List String
  | [] => []
  | t :: ts => matchingEntries dirPath t ++ matchingEntriesList dirPath ts
end

/-! ## Statement payload extractors and sample inputs -/

/-- The time row carried by a statement, if it is a time insert. -/
def timePayload : Stmt → Option (List Int)
  | Stmt.timeIns row => some row
  | _ => none

/-- The user row carried by a statement, if it is a user insert. -/
def userPayload : Stmt → Option (String × String × String × String × String)
  | Stmt.userIns a b c d e => some (a, b, c, d, e)
  | _ => none

/-- The songplay row carried by a statement, if it is one. -/
def songplayPayload : Stmt → Option SongplayRow
  | Stmt.songplayIns row => some row
  | _ => none

/-- The artist name carried by a statement, if it is a logartist insert. -/
def logartistPayload : Stmt → Option String
  | Stmt.logartistIns a => some a
  | _ => none

/-- Whether a statement is a time-dimension or user-dimension insert. -/
def Stmt.isDimension : Stmt → Bool
  | Stmt.timeIns _ => true
  | Stmt.userIns _ _ _ _ _ => true
  | _ => false

/-- Whether a statement is a songplay insert. -/
def Stmt.isSongplay : Stmt → Bool
  | Stmt.songplayIns _ => true
  | _ => false

/-- An empty database, for concrete instantiations. -/
def sampleDB : DB := { songs := [], artists := [] }

/-- A non-qualifying log record (page "Login"). -/
def loginRecord : LogRecord :=
  { page := "Login", ts := 1541207073796, userId := "39", firstName := "W"
    lastName := "K", gender := "F", level := "free", song := "", artist := ""
    length := 0, sessionId := 38, location := "loc", userAgent := "ua" }

/-- A qualifying log record (page "NextSong"). -/
def playRecord : LogRecord :=
  { loginRecord with
    page := "NextSong"
    song := "T"
    artist := "Y"
    length := 200 }

/-- A database holding two songs with identical title and duration by
the same artist, so the lookup for `playRecord` is ambiguous. -/
def dupDB : DB :=
  { songs := [⟨"S1", "T", "A1", 2000, 200⟩, ⟨"S2", "T", "A1", 2001, 200⟩]
    artists := [⟨"A1", "Y", "loc", 1, 2⟩] }

/-- A transformer stub over numbered files that raises on file 2, for
concrete instantiations of the driver theorems. -/
def failFunc : Nat → Except Nat (List Stmt) :=
  fun k => if k = 2 then Except.error 7 else Except.ok []

/-- The log transformer as handed to the driver, on a run where no
statement raises: every file yields its statement list. -/
def okLog (db : DB) : List LogRecord → Except Unit (List Stmt) :=
  fun recs => Except.ok (process_log_file db recs)

/-! # Theorems -/

/-- Building the seven column lists and transposing them
(`pd.DataFrame(data=time_data).T`) yields, row by row, the
decomposition of each timestamp in input order. -/
theorem timeRows_eq_map (tss : List Int) :
    timeRows tss = tss.map timeRowOfTs := by
  induction tss with
  | nil => rfl
  | cons t ts ih =>
      simpa [timeRows, timeData, transpose7, timeRowOfTs] using ih

/-- C1: the claim says the emitted Time row decomposes the instant
`ts` *milliseconds* after the epoch; the code (`pd.to_datetime` with
no `unit` argument, `etl.py` line 64) decomposes `ts` *nanoseconds*
after the epoch. At the spec's own example ts = 1541207073796 the code
produces the fields of 1970-01-01 00:25:41 UTC (hour 0, day 1, week 1,
month 1, year 1970, weekday 3) while the claim requires those of
2018-11-03 01:04:33 UTC (hour 1, day 3, ISO week 44, month 11,
year 2018, weekday 5). -/
theorem timeRow_uses_ns_not_ms :
    timeRowOfTs 1541207073796 = [1541207073796, 0, 1, 1, 1, 1970, 3] ∧
    specUtcFieldsOfMs 1541207073796 = [1, 3, 44, 11, 2018, 5] ∧
    (timeRowOfTs 1541207073796).tail ≠ specUtcFieldsOfMs 1541207073796 := by
  decide

/-- C8: for every song file record the transformer executes exactly
two statements: the Song tuple (song_id, title, artist_id, year,
duration) first, then the Artist tuple (artist_id, name, location,
latitude, longitude), each in the target table's column order
(`etl.py` lines 22–42). -/
theorem song_file_two_rows (r : SongFileRecord) :
    process_song_file r =
      [Stmt.songIns r.song_id r.title r.artist_id r.year r.duration,
       Stmt.artistIns r.artist_id r.artist_name r.artist_location
         r.artist_latitude r.artist_longitude] := rfl

/-- C5: a record whose page is not "NextSong" contributes zero rows of
any kind: deleting it from a log file leaves the emitted statement
list unchanged, wherever it occurs (`etl.py` line 61 filters before
any row is derived). -/
theorem non_nextsong_contributes_nothing (db : DB)
    (pre post : List LogRecord) (r : LogRecord)
    (h : r.page ≠ "NextSong") :
    process_log_file db (pre ++ r :: post)
      = process_log_file db (pre ++ post) := by
  have hq : qualifies r = false := by
    simp [qualifies]
    exact h
  have hfil : (pre ++ r :: post).filter qualifies
      = (pre ++ post).filter qualifies := by
    simp [List.filter_append, List.filter_cons, hq]
  unfold process_log_file
  rw [hfil]

/-- Witness for C5 at a concrete Login record. -/
theorem non_nextsong_contributes_nothing_witness :
    loginRecord.page ≠ "NextSong" ∧
      process_log_file sampleDB [loginRecord] = process_log_file sampleDB [] :=
  ⟨by decide,
   by simpa using
     non_nextsong_contributes_nothing sampleDB [] [] loginRecord (by decide)⟩

/-- `filterMap` of an everywhere-`some` function is a `map`. -/
theorem filterMap_some_comp {α β : Type} (f : α → β) (l : List α) :
    l.filterMap (fun x => some (f x)) = l.map f := by
  induction l with
  | nil => rfl
  | cons x xs ih => simp [List.filterMap_cons, ih]

/-- `filterMap` of an everywhere-`none` function is empty. -/
theorem filterMap_always_none {α β : Type} (l : List α) :
    l.filterMap (fun _ => (none : Option β)) = [] := by
  simp

/-- The songplay/logartist segment of the trace carries no time rows. -/
theorem filterMap_time_pairs (db : DB) (l : List LogRecord) :
    (l.flatMap fun r =>
        [Stmt.songplayIns (songplayRowOf db r),
         Stmt.logartistIns r.artist]).filterMap timePayload = [] := by
  induction l with
  | nil => rfl
  | cons x xs ih => simpa [timePayload] using ih

/-- C6: the Time rows the transformer emits are exactly the map of a
fixed function of each qualifying record's `ts` value, in record
order — so the row derived from a timestamp depends on nothing but the
timestamp, and re-deriving from an equal `ts` (in any file, with any
surrounding records, against any database) yields the identical row. -/
theorem time_rows_pure_in_ts (db : DB) (recs : List LogRecord) :
    (process_log_file db recs).filterMap timePayload
      = (recs.filter qualifies).map (fun r => timeRowOfTs r.ts) := by
  unfold process_log_file
  rw [List.filterMap_append, List.filterMap_append, timeRows_eq_map,
    filterMap_time_pairs]
  simp only [List.filterMap_map, timePayload, Function.comp_def,
    filterMap_some_comp, filterMap_always_none, List.append_nil]

/-- C2 counterexample: with two loaded songs sharing (title, artist,
duration), the lookup for `playRecord` yields two matches, yet the
code's `fetchone()` (`etl.py` line 121) takes the first row, so the
emitted songplay ids are the first match's, not null as the claim
states. -/
theorem ambiguous_lookup_not_null :
    (song_select dupDB playRecord.song playRecord.artist
        playRecord.length).length = 2 ∧
    resolveIds dupDB playRecord = (some "S1", some "A1") ∧
    resolveIds dupDB playRecord ≠ (none, none) := by
  decide

/-- C2 amended: zero matches yield (null, null); otherwise both ids
come from the *first* match the lookup returns — in particular an
unambiguous single match yields that match's ids, but an ambiguous
multi-match yields the first match's ids rather than nulls. -/
theorem resolveIds_head_of_matches (db : DB) (r : LogRecord) :
    (song_select db r.song r.artist r.length = [] →
        resolveIds db r = (none, none)) ∧
    ∀ sid aid rest,
      song_select db r.song r.artist r.length = (sid, aid) :: rest →
        resolveIds db r = (some sid, some aid) := by
  constructor
  · intro h
    simp [resolveIds, h]
  · intro sid aid rest h
    simp [resolveIds, h]

/-- Witness for C2's amended statement on the ambiguous database. -/
theorem resolveIds_head_of_matches_witness :
    resolveIds dupDB playRecord = (some "S1", some "A1") :=
  (resolveIds_head_of_matches dupDB playRecord).2 "S1" "A1"
    [("S2", "A1")] (by decide)

/-- The songplay rows of the trace are the qualifying records' rows in
record order. -/
theorem trace_songplays (db : DB) (recs : List LogRecord) :
    (process_log_file db recs).filterMap songplayPayload
      = (recs.filter qualifies).map (songplayRowOf db) := by
  unfold process_log_file
  rw [List.filterMap_append, List.filterMap_append]
  have hpairs : ∀ l : List LogRecord,
      (l.flatMap fun r =>
          [Stmt.songplayIns (songplayRowOf db r),
           Stmt.logartistIns r.artist]).filterMap songplayPayload
        = l.map (songplayRowOf db) := by
    intro l
    induction l with
    | nil => rfl
    | cons x xs ih => simpa [songplayPayload] using ih
  rw [hpairs]
  simp only [List.filterMap_map, songplayPayload, Function.comp_def,
    filterMap_always_none, List.nil_append]

/-- The user rows of the trace are the qualifying records' (userId,
firstName, lastName, gender, level) tuples in record order. -/
theorem trace_users (db : DB) (recs : List LogRecord) :
    (process_log_file db recs).filterMap userPayload
      = (recs.filter qualifies).map
          (fun r => (r.userId, r.firstName, r.lastName, r.gender, r.level)) := by
  unfold process_log_file
  rw [List.filterMap_append, List.filterMap_append]
  have hpairs : ∀ l : List LogRecord,
      (l.flatMap fun r =>
          [Stmt.songplayIns (songplayRowOf db r),
           Stmt.logartistIns r.artist]).filterMap userPayload = [] := by
    intro l
    induction l with
    | nil => rfl
    | cons x xs ih => simpa [userPayload] using ih
  rw [hpairs]
  simp only [List.filterMap_map, userPayload, Function.comp_def,
    filterMap_some_comp, filterMap_always_none, List.append_nil,
    List.nil_append]

/-- The logartist rows of the trace are the qualifying records' raw
artist names in record order. -/
theorem trace_logartists (db : DB) (recs : List LogRecord) :
    (process_log_file db recs).filterMap logartistPayload
      = (recs.filter qualifies).map (fun r => r.artist) := by
  unfold process_log_file
  rw [List.filterMap_append, List.filterMap_append]
  have hpairs : ∀ l : List LogRecord,
      (l.flatMap fun r =>
          [Stmt.songplayIns (songplayRowOf db r),
           Stmt.logartistIns r.artist]).filterMap logartistPayload
        = l.map (fun r => r.artist) := by
    intro l
    induction l with
    | nil => rfl
    | cons x xs ih => simpa [logartistPayload] using ih
  rw [hpairs]
  simp only [List.filterMap_map, logartistPayload, Function.comp_def,
    filterMap_always_none, List.nil_append]

/-- C7: the transformer performs each emission step for every
qualifying record in the file's record order (the songplay, user and
logartist streams each list the records in order), and every time or
user row — in particular the ones derived from a given record — is
executed before every songplay row: statement positions holding a
dimension insert precede all positions holding a songplay insert
(`etl.py` runs the loops of lines 99, 112 and 116 in sequence). -/
theorem dimension_rows_before_songplays (db : DB) (recs : List LogRecord)
    (p q : Nat) (s t : Stmt)
    (hp : (process_log_file db recs)[p]? = some s)
    (hs : s.isDimension = true)
    (hq : (process_log_file db recs)[q]? = some t)
    (ht : t.isSongplay = true) :
    p < q ∧
    (process_log_file db recs).filterMap songplayPayload
      = (recs.filter qualifies).map (songplayRowOf db) ∧
    (process_log_file db recs).filterMap userPayload
      = (recs.filter qualifies).map
          (fun r => (r.userId, r.firstName, r.lastName, r.gender, r.level)) ∧
    (process_log_file db recs).filterMap logartistPayload
      = (recs.filter qualifies).map (fun r => r.artist) := by
  refine ⟨?_, trace_songplays db recs, trace_users db recs,
    trace_logartists db recs⟩
  have hT : process_log_file db recs
      = ((timeRows ((recs.filter qualifies).map (·.ts))).map Stmt.timeIns
          ++ (recs.filter qualifies).map (fun r =>
              Stmt.userIns r.userId r.firstName r.lastName r.gender r.level))
        ++ (recs.filter qualifies).flatMap (fun r =>
            [Stmt.songplayIns (songplayRowOf db r),
             Stmt.logartistIns r.artist]) := by
    simp [process_log_file]
  rw [hT] at hp hq
  set L := (timeRows ((recs.filter qualifies).map (·.ts))).map Stmt.timeIns
      ++ (recs.filter qualifies).map (fun r =>
          Stmt.userIns r.userId r.firstName r.lastName r.gender r.level)
    with hL
  set C := (recs.filter qualifies).flatMap (fun r =>
      [Stmt.songplayIns (songplayRowOf db r), Stmt.logartistIns r.artist])
    with hC
  have hLmem : ∀ x ∈ L, x.isSongplay = false := by
    intro x hx
    rcases List.mem_append.mp hx with hx | hx
    · obtain ⟨row, -, rfl⟩ := List.mem_map.mp hx
      rfl
    · obtain ⟨r, -, rfl⟩ := List.mem_map.mp hx
      rfl
  have hCmem : ∀ x ∈ C, x.isDimension = false := by
    intro x hx
    obtain ⟨r, -, hx⟩ := List.mem_flatMap.mp hx
    simp only [List.mem_cons, List.mem_singleton] at hx
    rcases hx with rfl | rfl | hx
    · rfl
    · rfl
    · exact absurd hx (List.not_mem_nil x)
  have hqge : L.length ≤ q := by
    by_contra hcon
    push_neg at hcon
    rw [List.getElem?_append_left hcon] at hq
    have ht' : t ∈ L := List.getElem?_mem hq
    rw [hLmem t ht'] at ht
    exact Bool.false_ne_true ht
  have hplt : p < L.length := by
    by_contra hcon
    push_neg at hcon
    rw [List.getElem?_append_right hcon] at hp
    have hs' : s ∈ C := List.getElem?_mem hp
    rw [hCmem s hs'] at hs
    exact Bool.false_ne_true hs
  omega

/-- Witness for C7 on a one-record log file: the time insert at
position 0 precedes the songplay insert at position 2, and the three
row streams are as stated. -/
theorem dimension_rows_before_songplays_witness :
    0 < 2 ∧
    (process_log_file sampleDB [playRecord]).filterMap songplayPayload
      = ([playRecord].filter qualifies).map (songplayRowOf sampleDB) ∧
    (process_log_file sampleDB [playRecord]).filterMap userPayload
      = ([playRecord].filter qualifies).map
          (fun r => (r.userId, r.firstName, r.lastName, r.gender, r.level)) ∧
    (process_log_file sampleDB [playRecord]).filterMap logartistPayload
      = ([playRecord].filter qualifies).map (fun r => r.artist) :=
  dimension_rows_before_songplays sampleDB [playRecord] 0 2
    (Stmt.timeIns (timeRowOfTs playRecord.ts))
    (Stmt.songplayIns (songplayRowOf sampleDB playRecord))
    (by decide) (by decide) (by decide) (by decide)

/-- The driver loop stops at the first failing file: the trace is
exactly the one produced by the successful prefix, and the error is
reported. -/
theorem driverLoop_stops_at_error {α ε : Type}
    (func : α → Except ε (List Stmt)) (n : Nat) (f : α) (e : ε)
    (hf : func f = Except.error e) :
    ∀ (pre : List α), (∀ x ∈ pre, ∃ ws, func x = Except.ok ws) →
      ∀ (i : Nat) (post : List α),
        driverLoop func n i (pre ++ f :: post)
          = ((driverLoop func n i pre).1, some e) := by
  intro pre
  induction pre with
  | nil =>
      intro _ i post
      simp [driverLoop, hf]
  | cons x xs ih =>
      intro hpre i post
      obtain ⟨ws, hws⟩ := hpre x (List.mem_cons_self x xs)
      have htail := ih (fun y hy => hpre y (List.mem_cons_of_mem x hy))
        (i + 1) post
      simp [driverLoop, hws, htail]

/-- C3: if the transformer (or any statement it executes) raises on a
file, the driver's observable behavior is exactly that of the
successful prefix plus the propagated error: the failing file gets no
commit (none of its writes persist in the trace), no later file is
processed, and the earlier files' committed events are untouched
(`etl.py` lines 161–164 have no error handling). -/
theorem failing_file_aborts_run {α ε : Type}
    (func : α → Except ε (List Stmt)) (pre post : List α) (f : α) (e : ε)
    (hpre : ∀ x ∈ pre, ∃ ws, func x = Except.ok ws)
    (hf : func f = Except.error e) :
    process_data func (pre ++ f :: post)
      = ((driverLoop func (pre ++ f :: post).length 1 pre).1, some e) := by
  unfold process_data
  exact driverLoop_stops_at_error func _ f e hf pre hpre 1 post

/-- Witness for C3: file 2 of [1, 2, 3] fails under `failFunc`; file 1
is processed and committed, file 3 is never attempted. -/
theorem failing_file_aborts_run_witness :
    process_data failFunc ([1] ++ 2 :: [3])
      = ((driverLoop failFunc ([1] ++ 2 :: [3]).length 1 [1]).1, some 7) ∧
    process_data failFunc ([1] ++ 2 :: [3])
      = ([DriverEvent.commit, DriverEvent.progress 1 3], some 7) := by
  refine ⟨failing_file_aborts_run failFunc [1] [3] 2 7 ?_ rfl, by decide⟩
  intro x hx
  have hx1 : x = 1 := by
    simpa using hx
  exact ⟨[], by simp [failFunc, hx1]⟩

/-- The driver loop over a successful prefix followed by more files:
the prefix's trace is emitted intact, then the rest runs with the
enumeration index advanced by the prefix length. -/
theorem driverLoop_append_ok {α ε : Type}
    (func : α → Except ε (List Stmt)) (n : Nat) :
    ∀ (pre : List α), (∀ x ∈ pre, ∃ ws, func x = Except.ok ws) →
      ∀ (i : Nat) (rest : List α),
        driverLoop func n i (pre ++ rest)
          = ((driverLoop func n i pre).1
              ++ (driverLoop func n (i + pre.length) rest).1,
             (driverLoop func n (i + pre.length) rest).2) := by
  intro pre
  induction pre with
  | nil =>
      intro _ i rest
      simp [driverLoop]
  | cons x xs ih =>
      intro hpre i rest
      obtain ⟨ws, hws⟩ := hpre x (List.mem_cons_self x xs)
      have htail := ih (fun y hy => hpre y (List.mem_cons_of_mem x hy))
        (i + 1) rest
      have harith : i + 1 + xs.length = i + (xs.length + 1) := by omega
      simp [driverLoop, hws, htail, harith]

/-- C10: for a log file in which no record is a NextSong event, the
transformer executes zero insert statements, yet the driver still
issues that file's commit and counts it in the printed
files-processed progress total (`etl.py` lines 161–164 commit and
print unconditionally). -/
theorem no_nextsong_file_still_committed (db : DB)
    (pre post : List (List LogRecord)) (fk : List LogRecord)
    (hnone : ∀ r ∈ fk, r.page ≠ "NextSong") :
    process_log_file db fk = [] ∧
    process_data (okLog db) (pre ++ fk :: post)
      = ((driverLoop (okLog db) (pre ++ fk :: post).length 1 pre).1
          ++ DriverEvent.commit
            :: DriverEvent.progress (pre.length + 1) (pre ++ fk :: post).length
            :: (driverLoop (okLog db) (pre ++ fk :: post).length
                  (pre.length + 2) post).1,
         (driverLoop (okLog db) (pre ++ fk :: post).length
            (pre.length + 2) post).2) := by
  have hfil : fk.filter qualifies = [] := by
    rw [List.filter_eq_nil_iff]
    intro r hr
    simp only [qualifies, beq_iff_eq]
    exact hnone r hr
  have hempty : process_log_file db fk = [] := by
    unfold process_log_file
    rw [hfil]
    rfl
  refine ⟨hempty, ?_⟩
  unfold process_data
  rw [driverLoop_append_ok (okLog db) (pre ++ fk :: post).length pre
    (fun x _ => ⟨_, rfl⟩) 1 (fk :: post)]
  have h1 : 1 + pre.length = pre.length + 1 := by omega
  have h2 : pre.length + 1 + 1 = pre.length + 2 := by omega
  simp [driverLoop, okLog, hempty, h1, h2]

/-- Witness for C10 on a one-file run whose only record is a Login. -/
theorem no_nextsong_file_still_committed_witness :
    process_log_file sampleDB [loginRecord] = [] ∧
    process_data (okLog sampleDB) ([] ++ [loginRecord] :: [])
      = ((driverLoop (okLog sampleDB) ([] ++ [loginRecord] :: []).length
              1 []).1
          ++ DriverEvent.commit
            :: DriverEvent.progress (List.length ([] : List (List LogRecord))
                  + 1) ([] ++ [loginRecord] :: []).length
            :: (driverLoop (okLog sampleDB)
                  ([] ++ [loginRecord] :: []).length
                  (List.length ([] : List (List LogRecord)) + 2) []).1,
         (driverLoop (okLog sampleDB) ([] ++ [loginRecord] :: []).length
            (List.length ([] : List (List LogRecord)) + 2) []).2) :=
  no_nextsong_file_still_committed sampleDB [] [] [loginRecord]
    (by intro r hr; rw [List.mem_singleton] at hr; subst hr; decide)

/-- C4 counterexample: when the song pipeline raises, `main` exits
with the error and its trace holds no close event — the connection is
not closed on that exit path (`etl.py` lines 167–176 have no
`try`/`finally`). -/
theorem main_error_skips_close :
    mainRun (Except.error 7) (Except.ok ()) = ([MainEvent.connect], some 7) ∧
    MainEvent.close ∉ [MainEvent.connect] := by
  decide

/-- C4 amended: the connection is closed exactly on the
normal-completion path: the close step is in `main`'s trace iff no
exception was propagated; an exception in either pipeline run
terminates `main` without closing the connection. -/
theorem main_closes_iff_success {ε : Type} (songRun logRun : Except ε Unit) :
    MainEvent.close ∈ (mainRun songRun logRun).1
      ↔ (mainRun songRun logRun).2 = none := by
  cases songRun <;> cases logRun <;> simp [mainRun]

/-- Splitting one element's matches off a directory glob. -/
theorem globJson_cons (p : String) (t : FSTree) (ts : List FSTree) :
    globJson p (t :: ts)
      = (if globMatch t.name then [p ++ "/" ++ t.name] else [])
        ++ globJson p ts := by
  by_cases h : globMatch t.name = true
  · simp [globJson, List.filter_cons, h]
  · simp [globJson, List.filter_cons, h]

/-- Interchanging two list blocks is a permutation. -/
theorem perm_swap_blocks {α : Type} (a b c d : List α) :
    (a ++ (b ++ (c ++ d))).Perm ((a ++ c) ++ (b ++ d)) := by
  have h1 : (b ++ (c ++ d)).Perm (c ++ (b ++ d)) :=
    List.perm_append_comm_assoc b c d
  have h2 := h1.append_left a
  simpa [List.append_assoc] using h2

mutual
/-- Glob matches collected by walking one entry, together with the
entry's own match, are a permutation of all matching entries at or
below the entry. -/
theorem walkTree_perm (p : String) (t : FSTree) :
    ((if globMatch t.name then [p ++ "/" ++ t.name] else [])
        ++ (walkTree p t).flatMap fun q => globJson q.1 q.2).Perm
      (matchingEntries p t) := by
  match t with
  | FSTree.file n =>
      simp only [walkTree, matchingEntries, FSTree.name, List.flatMap_nil,
        List.append_nil]
      exact List.Perm.refl _
  | FSTree.dir n cs =>
      have ih := walkTreeList_perm (p ++ "/" ++ n) cs
      simp only [walkTree, matchingEntries, FSTree.name, List.flatMap_cons,
        List.append_assoc]
      exact ih.append_left _

/-- Glob matches of a directory listing plus those collected by
walking each entry are a permutation of all matching entries at or
below the listing. -/
theorem walkTreeList_perm (p : String) (ts : List FSTree) :
    (globJson p ts
        ++ (walkTreeList p ts).flatMap fun q => globJson q.1 q.2).Perm
      (matchingEntriesList p ts) := by
  match ts with
  | [] =>
      simp only [walkTreeList, matchingEntriesList, List.flatMap_nil,
        List.append_nil, globJson, List.filter_nil, List.map_nil]
      exact List.Perm.refl _
  | t :: rest =>
      have iht := walkTree_perm p t
      have ihr := walkTreeList_perm p rest
      rw [globJson_cons, walkTreeList, matchingEntriesList,
        List.flatMap_append, List.append_assoc]
      calc ((if globMatch t.name then [p ++ "/" ++ t.name] else [])
              ++ (globJson p rest
                ++ (((walkTree p t).flatMap fun q => globJson q.1 q.2)
                  ++ (walkTreeList p rest).flatMap fun q => globJson q.1 q.2)))
          |>.Perm
            (((if globMatch t.name then [p ++ "/" ++ t.name] else [])
                ++ (walkTree p t).flatMap fun q => globJson q.1 q.2)
              ++ (globJson p rest
                ++ (walkTreeList p rest).flatMap fun q => globJson q.1 q.2)) :=
            perm_swap_blocks _ _ _ _
        _ |>.Perm (matchingEntries p t ++ matchingEntriesList p rest) :=
            iht.append ihr
end

/-- C9 amended: discovery returns, up to traversal order, exactly the
absolute paths of the entries — files or directories alike — anywhere
under the root whose names match the glob `*.json` (ending in `.json`
and not starting with a dot); in particular a tree with no matching
entry yields the empty list, not an error. Hidden `.json` files are
skipped and matching directory names are included, which is why the
claim as stated fails. -/
theorem discover_perm_matching (rootPath : String) (entries : List FSTree) :
    (discover rootPath entries).Perm (matchingEntriesList rootPath entries) := by
  have h := walkTreeList_perm rootPath entries
  simpa [discover, List.flatMap_cons] using h

/-- C9 counterexample: a root holding the two files `a.json` and
`.hidden.json` — both with the `.json` extension — yields a single
discovered path: the hidden matching file is missing from the result,
so discovery does not return every file with the matching extension. -/
theorem hidden_json_not_discovered :
    discover "/data" [FSTree.file "a.json", FSTree.file ".hidden.json"]
      = ["/data/a.json"] ∧
    List.isSuffixOf ".json".data ".hidden.json".data = true ∧
    (discover "/data"
        [FSTree.file "a.json", FSTree.file ".hidden.json"]).length ≠ 2 := by
  decide

end Etl
